import Mathlib

/-!
Shallow embedding of the camera/projection subsystem and render-orchestration
constants of the rust-obj-viewer repository (src/camera.rs, src/engine.rs).

The Rust code computes with f32; here f32 arithmetic is modelled as exact real
arithmetic: every definition mirrors the corresponding Rust expression
structurally, with Real.sin, Real.cos, Real.sqrt, Real.tan for the f32
intrinsics.  cgmath's column-major Matrix4::new literals are transcribed into
row-indexed Mathlib matrices (entry (i, j) is row i, column j).
-/

namespace ObjViewer

/-- Model of cgmath Vector3 of f32 (also used for Point3, which has the same
components and componentwise arithmetic in the operations this code uses). -/
@[ext]
structure Vec3 where
  x : ℝ
  y : ℝ
  z : ℝ

instance : Add Vec3 := ⟨fun a b => ⟨a.x + b.x, a.y + b.y, a.z + b.z⟩⟩

instance : Sub Vec3 := ⟨fun a b => ⟨a.x - b.x, a.y - b.y, a.z - b.z⟩⟩

instance : SMul ℝ Vec3 := ⟨fun k v => ⟨k * v.x, k * v.y, k * v.z⟩⟩

/-- cgmath InnerSpace::dot for Vector3. -/
def Vec3.dot (a b : Vec3) : ℝ := a.x * b.x + a.y * b.y + a.z * b.z

/-- cgmath InnerSpace::magnitude: sqrt of the dot product with itself. -/
noncomputable def Vec3.magnitude (v : Vec3) : ℝ := Real.sqrt (v.dot v)

/-- cgmath InnerSpace::normalize: the vector scaled by the reciprocal of its
magnitude. -/
noncomputable def Vec3.normalize (v : Vec3) : Vec3 := (1 / v.magnitude) • v

/-- cgmath Vector3::cross. -/
def Vec3.cross (a b : Vec3) : Vec3 :=
  ⟨a.y * b.z - a.z * b.y, a.z * b.x - a.x * b.z, a.x * b.y - a.y * b.x⟩

/-- cgmath Vector3::unit_y. -/
def unit_y : Vec3 := ⟨0, 1, 0⟩

/-- cgmath Vector3::unit_z. -/
def unit_z : Vec3 := ⟨0, 0, 1⟩

/-- src/camera.rs lines 13-18: CameraData (position, yaw, pitch); angles are
radians, stored as plain reals. -/
@[ext]
structure CameraData where
  position : Vec3
  yaw : ℝ
  pitch : ℝ

/-- The direction vector built inside CameraData::calc_matrix, line 33-37:
(cos yaw, sin pitch, sin yaw). -/
noncomputable def lookToDir (yaw pitch : ℝ) : Vec3 :=
  ⟨Real.cos yaw, Real.sin pitch, Real.sin yaw⟩

/-- 4x4 real matrix, modelling cgmath Matrix4 of f32 in row-indexed form. -/
abbrev Mat4 := Matrix (Fin 4) (Fin 4) ℝ

/-- cgmath Matrix4::look_to_rh(eye, dir, up). -/
noncomputable def look_to_rh (eye dir up : Vec3) : Mat4 :=
  let f := dir.normalize
  let s := (f.cross up).normalize
  let u := s.cross f
  !![s.x, s.y, s.z, -(eye.dot s);
     u.x, u.y, u.z, -(eye.dot u);
     -f.x, -f.y, -f.z, eye.dot f;
     0, 0, 0, 1]

/-- src/camera.rs lines 30-40: CameraData::calc_matrix. -/
noncomputable def CameraData.calc_matrix (c : CameraData) : Mat4 :=
  look_to_rh c.position (lookToDir c.yaw c.pitch) unit_y

/-- src/camera.rs lines 5-11: OPENGL_TO_WGPU_MATRIX.  The Rust literal is
column-major (columns (1,0,0,0), (0,1,0,0), (0,0,0.5,0), (0,0,0.5,1));
transcribed here row by row. -/
def OPENGL_TO_WGPU_MATRIX : Mat4 :=
  !![1, 0, 0, 0;
     0, 1, 0, 0;
     0, 0, 0.5, 0.5;
     0, 0, 0, 1]

/-- src/camera.rs lines 43-48: Projection. -/
structure Projection where
  aspect : ℝ
  fovy : ℝ
  znear : ℝ
  zfar : ℝ

/-- src/camera.rs lines 52-60: Projection::new (aspect is width / height). -/
noncomputable def Projection.new (width height : ℕ) (fovy znear zfar : ℝ) : Projection :=
  ⟨(width : ℝ) / (height : ℝ), fovy, znear, zfar⟩

/-- src/camera.rs lines 62-64: Projection::resize updates only the aspect
ratio.  f32 division is modelled as real division (at height = 0 Lean's
division convention yields 0 where f32 yields an infinity; the structural
fact modelled is that the quotient is stored unconditionally). -/
noncomputable def Projection.resize (p : Projection) (width height : ℕ) : Projection :=
  { p with aspect := (width : ℝ) / (height : ℝ) }

/-- cgmath perspective(fovy, aspect, near, far): row-indexed transcription of
the column-major PerspectiveFov-to-Matrix4 conversion, with
f = cot(fovy / 2) = (tan (fovy / 2))⁻¹. -/
noncomputable def perspective (fovy aspect near far : ℝ) : Mat4 :=
  let f := (Real.tan (fovy / 2))⁻¹
  !![f / aspect, 0, 0, 0;
     0, f, 0, 0;
     0, 0, (far + near) / (near - far), 2 * far * near / (near - far);
     0, 0, -1, 0]

/-- src/camera.rs lines 66-68: Projection::calc_matrix. -/
noncomputable def Projection.calc_matrix (p : Projection) : Mat4 :=
  OPENGL_TO_WGPU_MATRIX * perspective p.fovy p.aspect p.znear p.zfar

/-- src/camera.rs lines 71-84: CameraController state. -/
structure CameraController where
  amount_left : ℝ
  amount_right : ℝ
  amount_forward : ℝ
  amount_backward : ℝ
  amount_up : ℝ
  amount_down : ℝ
  rotate_horizontal : ℝ
  rotate_vertical : ℝ
  scroll : ℝ
  speed : ℝ
  sensitivity : ℝ

/-- src/camera.rs lines 88-102: CameraController::new. -/
def CameraController.new (speed sensitivity : ℝ) : CameraController :=
  ⟨0, 0, 0, 0, 0, 0, 0, 0, 0, speed, sensitivity⟩

/-- winit ElementState. -/
inductive ElementState where
  | pressed
  | released
deriving DecidableEq

/-- The winit VirtualKeyCode variants matched by process_keyboard, plus a
sample of the unmatched variants that fall into the catch-all arm. -/
inductive VirtualKeyCode where
  | w
  | up
  | s
  | down
  | a
  | left
  | d
  | right
  | space
  | lshift
  | escape
  | tab
  | e
  | q
  | rshift
  | key1
deriving DecidableEq

/-- src/camera.rs lines 104-134: CameraController::process_keyboard.  Returns
the updated controller and the handled flag. -/
def CameraController.process_keyboard (c : CameraController) (key : VirtualKeyCode)
    (state : ElementState) : CameraController × Bool :=
  let amount : ℝ := if state = ElementState.pressed then 1 else 0
  match key with
  | .w | .up => ({ c with amount_forward := amount }, true)
  | .s | .down => ({ c with amount_backward := amount }, true)
  | .a | .left => ({ c with amount_left := amount }, true)
  | .d | .right => ({ c with amount_right := amount }, true)
  | .space => ({ c with amount_up := amount }, true)
  | .lshift => ({ c with amount_down := amount }, true)
  | _ => (c, false)

/-- src/camera.rs lines 136-139: CameraController::process_mouse. -/
def CameraController.process_mouse (c : CameraController) (mouse_dx mouse_dy : ℝ) :
    CameraController :=
  { c with rotate_horizontal := mouse_dx, rotate_vertical := mouse_dy }

/-- winit MouseScrollDelta: LineDelta(x, y) or PixelDelta(position with x, y). -/
inductive MouseScrollDelta where
  | lineDelta (x y : ℝ)
  | pixelDelta (x y : ℝ)

/-- src/camera.rs lines 141-152: CameraController::process_scroll. -/
def CameraController.process_scroll (c : CameraController) (delta : MouseScrollDelta) :
    CameraController :=
  { c with
    scroll :=
      -(match delta with
        | .lineDelta _ scroll => scroll * 100
        | .pixelDelta _ scroll => scroll) }

/-- The horizontal forward vector of src/camera.rs line 160:
(yaw_cos, 0, yaw_sin). -/
noncomputable def forwardDir (yaw : ℝ) : Vec3 := ⟨Real.cos yaw, 0, Real.sin yaw⟩

/-- The horizontal right vector of src/camera.rs line 161:
(-yaw_sin, 0, yaw_cos). -/
noncomputable def rightDir (yaw : ℝ) : Vec3 := ⟨-Real.sin yaw, 0, Real.cos yaw⟩

/-- The scroll direction of src/camera.rs line 168:
(pitch_cos * yaw_cos, pitch_sin, pitch_cos * yaw_sin). -/
noncomputable def scrollwardDir (yaw pitch : ℝ) : Vec3 :=
  ⟨Real.cos pitch * Real.cos yaw, Real.sin pitch, Real.cos pitch * Real.sin yaw⟩

/-- src/camera.rs lines 186-191: the final pitch clamp of update_camera,
written with the same strict comparisons against plus/minus FRAC_PI_2. -/
noncomputable def clampPitch (p : ℝ) : ℝ :=
  if p < -(Real.pi / 2) then -(Real.pi / 2)
  else if p > Real.pi / 2 then Real.pi / 2
  else p

/-- src/camera.rs lines 154-192: CameraController::update_camera, as a pure
function from (controller, camera, dt in seconds) to the updated
(controller, camera).  The let-sequence mirrors the Rust statement order. -/
noncomputable def CameraController.update_camera (c : CameraController) (camera : CameraData)
    (dt : ℝ) : CameraController × CameraData :=
  let forward := (forwardDir camera.yaw).normalize
  let right := (rightDir camera.yaw).normalize
  let pos1 := camera.position + ((c.amount_forward - c.amount_backward) * c.speed * dt) • forward
  let pos2 := pos1 + ((c.amount_right - c.amount_left) * c.speed * dt) • right
  let scrollward := (scrollwardDir camera.yaw camera.pitch).normalize
  let pos3 := pos2 + (c.scroll * c.speed * c.sensitivity * dt) • scrollward
  let c1 := { c with scroll := 0 }
  let pos4 := { pos3 with y := pos3.y + (c.amount_up - c.amount_down) * c.speed * dt }
  let yaw1 := camera.yaw + c.rotate_horizontal * c.sensitivity * dt
  let pitch1 := camera.pitch + -c.rotate_vertical * c.sensitivity * dt
  let c2 := { c1 with rotate_horizontal := 0, rotate_vertical := 0 }
  (c2, { position := pos4, yaw := yaw1, pitch := clampPitch pitch1 })

/-- src/engine.rs line 16. -/
def NUM_INSTANCES_PER_ROW : ℕ := 10

/-- src/engine.rs line 17. -/
def NUM_INSTANCES : ℕ := NUM_INSTANCES_PER_ROW * NUM_INSTANCES_PER_ROW

/-- src/engine.rs line 18. -/
noncomputable def INSTANCE_DISPLACEMENT : Vec3 :=
  ⟨(NUM_INSTANCES_PER_ROW : ℝ) * 0.5, 0, (NUM_INSTANCES_PER_ROW : ℝ) * 0.5⟩

/-- A rotation given as cgmath Quaternion::from_axis_angle data: the claims
about the instance grid concern only which axis and angle each instance is
constructed with, so the quaternion is kept in axis-angle form. -/
structure AxisAngle where
  axis : Vec3
  angleDeg : ℝ

/-- Model of the instance::Instance records built in src/engine.rs lines
86-88. -/
structure Instance where
  position : Vec3
  rotation : AxisAngle
  scaling : Vec3

/-- src/engine.rs line 76: the let position of the instance closure for grid
indices (z, x): (x * 10, 0, z * 10) minus INSTANCE_DISPLACEMENT. -/
noncomputable def gridPosition (z x : ℕ) : Vec3 :=
  Vec3.mk ((x : ℝ) * 10) 0 ((z : ℝ) * 10) - INSTANCE_DISPLACEMENT

open Classical in
/-- src/engine.rs lines 74-89, body of the nested closure for grid indices
(z, x): rotation is identity (angle 0 about unit_z) when the position is the
zero vector (Zero::is_zero) and otherwise 45 degrees about the normalized
position; scaling is uniform 0.05. -/
noncomputable def gridInstance (z x : ℕ) : Instance :=
  let position := gridPosition z x
  let rot :=
    if position = Vec3.mk 0 0 0 then AxisAngle.mk unit_z 0
    else AxisAngle.mk position.normalize 45
  ⟨position, rot, ⟨0.05, 0.05, 0.05⟩⟩

/-- src/engine.rs lines 74-90: the flat_map over z of the map over x building
the instance list. -/
noncomputable def engineInstances : List Instance :=
  (List.range NUM_INSTANCES_PER_ROW).flatMap fun z =>
    (List.range NUM_INSTANCES_PER_ROW).map fun x => gridInstance z x

/-- winit PhysicalSize of u32. -/
structure PhysicalSize where
  width : ℕ
  height : ℕ

/-- The width/height part of wgpu SurfaceConfiguration, the only part
Engine::resize touches. -/
structure SurfaceConfiguration where
  width : ℕ
  height : ℕ

/-- Model of texture::Texture::create_depth_texture(device, config, label):
the depth texture is recreated with the dimensions of the surface
configuration passed to it. -/
def create_depth_texture (config : SurfaceConfiguration) : SurfaceConfiguration := config

/-- The fields of Engine (src/engine.rs lines 20-46) that Engine::resize
reads or writes: the projection held by the camera, the stored window size,
the surface configuration and the depth texture (tracked by its
dimensions). -/
structure Engine where
  projection : Projection
  window_size : PhysicalSize
  surface_config : SurfaceConfiguration
  depth_texture : SurfaceConfiguration

/-- Modelled from the spec: camera::Camera (the wrapper whose
resize_projection Engine::resize calls on line 207) is not among the source
files; per the spec, resize handling must "update projection aspect", which
Projection::resize (src/camera.rs lines 62-64) does from the new
dimensions. -/
noncomputable def Camera.resize_projection (p : Projection) (new_size : PhysicalSize) :
    Projection :=
  p.resize new_size.width new_size.height

/-- src/engine.rs lines 206-215: Engine::resize.  The projection aspect is
recomputed unconditionally; window size and surface configuration are updated
only when both dimensions are positive; the depth texture is recreated from
the (possibly updated) surface configuration. -/
noncomputable def Engine.resize (e : Engine) (new_size : PhysicalSize) : Engine :=
  let projection := Camera.resize_projection e.projection new_size
  let (window_size, surface_config) :=
    if 0 < new_size.width ∧ 0 < new_size.height then
      (new_size, SurfaceConfiguration.mk new_size.width new_size.height)
    else
      (e.window_size, e.surface_config)
  { projection := projection,
    window_size := window_size,
    surface_config := surface_config,
    depth_texture := create_depth_texture surface_config }

/-- Written from the words of the spec sentence for the clip-space
correction: a matrix with diagonal (1, 1, 0.5, 0) and a single extra
translation entry of 0.5 in its third row. -/
def specClipSpaceCorrection : Mat4 :=
  !![1, 0, 0, 0;
     0, 1, 0, 0;
     0, 0, 0.5, 0.5;
     0, 0, 0, 0]

/-- Written from the amended wording: a matrix with diagonal (1, 1, 0.5, 1)
and a single extra translation entry of 0.5 in its third row. -/
def clipSpaceCorrection : Mat4 :=
  !![1, 0, 0, 0;
     0, 1, 0, 0;
     0, 0, 0.5, 0.5;
     0, 0, 0, 1]

/-- Concrete controller for the pitch-clamp counterexample: the engine's
controller (speed 4, sensitivity 0.5) with an accumulated vertical rotation
of -4. -/
def pitchCexController : CameraController :=
  { CameraController.new 4 0.5 with rotate_vertical := -4 }

/-- Camera at the origin with yaw 0 and pitch 0. -/
def originCamera : CameraData := ⟨⟨0, 0, 0⟩, 0, 0⟩

/-- Camera whose pitch 2 lies outside the clamp interval. -/
def outOfRangeCamera : CameraData := ⟨⟨0, 0, 0⟩, 0, 2⟩

/-- The controller of the forward-movement scenario: the engine's controller
(speed 4, sensitivity 0.5) after process_keyboard(W, Pressed). -/
def forwardController : CameraController :=
  ((CameraController.new 4 0.5).process_keyboard VirtualKeyCode.w ElementState.pressed).1

/-- The camera of the forward-movement scenario: origin, yaw -pi/2 (-90
degrees), pitch 0. -/
noncomputable def forwardCamera : CameraData := ⟨⟨0, 0, 0⟩, -(Real.pi / 2), 0⟩

/-- A concrete projection: aspect 1, fovy pi/2, znear 1, zfar 2. -/
noncomputable def cexProjection : Projection := ⟨1, Real.pi / 2, 1, 2⟩

/-! Helper lemmas shared by the claim theorems. -/

theorem Vec3.add_def (a b : Vec3) : a + b = ⟨a.x + b.x, a.y + b.y, a.z + b.z⟩ := rfl

theorem Vec3.sub_def (a b : Vec3) : a - b = ⟨a.x - b.x, a.y - b.y, a.z - b.z⟩ := rfl

theorem Vec3.smul_def (k : ℝ) (v : Vec3) : k • v = ⟨k * v.x, k * v.y, k * v.z⟩ := rfl

theorem Vec3.normalize_of_dot_self_eq_one (v : Vec3) (h : v.dot v = 1) : v.normalize = v := by
  unfold Vec3.normalize Vec3.magnitude
  rw [h, Real.sqrt_one]
  refine Vec3.ext ?_ ?_ ?_ <;> simp [Vec3.smul_def]

theorem clampPitch_mem (p : ℝ) :
    -(Real.pi / 2) ≤ clampPitch p ∧ clampPitch p ≤ Real.pi / 2 := by
  have hpi := Real.pi_pos
  unfold clampPitch
  split_ifs with h1 h2 <;> constructor <;> linarith

theorem clampPitch_of_mem (p : ℝ) (h1 : -(Real.pi / 2) ≤ p) (h2 : p ≤ Real.pi / 2) :
    clampPitch p = p := by
  unfold clampPitch
  split_ifs with ha hb
  · linarith
  · linarith
  · rfl

theorem update_camera_fst (c : CameraController) (cam : CameraData) (dt : ℝ) :
    (c.update_camera cam dt).1
      = { c with scroll := 0, rotate_horizontal := 0, rotate_vertical := 0 } := rfl

theorem update_camera_yaw (c : CameraController) (cam : CameraData) (dt : ℝ) :
    (c.update_camera cam dt).2.yaw = cam.yaw + c.rotate_horizontal * c.sensitivity * dt := rfl

theorem update_camera_pitch (c : CameraController) (cam : CameraData) (dt : ℝ) :
    (c.update_camera cam dt).2.pitch
      = clampPitch (cam.pitch + -c.rotate_vertical * c.sensitivity * dt) := rfl

theorem update_camera_position (c : CameraController) (cam : CameraData) (dt : ℝ) :
    (c.update_camera cam dt).2.position
      = cam.position
          + ((c.amount_forward - c.amount_backward) * c.speed * dt) • (forwardDir cam.yaw).normalize
          + ((c.amount_right - c.amount_left) * c.speed * dt) • (rightDir cam.yaw).normalize
          + (c.scroll * c.speed * c.sensitivity * dt) • (scrollwardDir cam.yaw cam.pitch).normalize
          + Vec3.mk 0 ((c.amount_up - c.amount_down) * c.speed * dt) 0 := by
  refine Vec3.ext ?_ ?_ ?_ <;>
    simp [CameraController.update_camera, Vec3.add_def, Vec3.smul_def]

/-- C1 (amended): after any call to update_camera the camera pitch lies in the
closed interval from -pi/2 to pi/2, for every camera state, controller state
and dt; the clamp can land exactly on an endpoint, so the open interval of the
original claim is refuted separately. -/
theorem update_camera_pitch_in_closed_interval (c : CameraController) (cam : CameraData)
    (dt : ℝ) :
    -(Real.pi / 2) ≤ (c.update_camera cam dt).2.pitch
      ∧ (c.update_camera cam dt).2.pitch ≤ Real.pi / 2 := by
  rw [update_camera_pitch]
  exact clampPitch_mem _

/-- C1 counterexample: a vertical rotation delta of -4 with sensitivity 0.5
and dt = 1 drives the candidate pitch to 2, which the clamp sends to exactly
pi/2, so the updated pitch is not strictly below pi/2. -/
theorem update_camera_pitch_hits_half_pi :
    (pitchCexController.update_camera originCamera 1).2.pitch = Real.pi / 2
      ∧ ¬ (pitchCexController.update_camera originCamera 1).2.pitch < Real.pi / 2 := by
  have hlt : Real.pi / 2 < 2 := by linarith [Real.pi_lt_d2]
  have h : (pitchCexController.update_camera originCamera 1).2.pitch = Real.pi / 2 := by
    rw [update_camera_pitch]
    show clampPitch (0 + -(-4) * 0.5 * 1) = _
    rw [show (0 : ℝ) + -(-4) * 0.5 * 1 = 2 by norm_num]
    unfold clampPitch
    rw [if_neg (not_lt.mpr (by linarith [Real.pi_pos])), if_pos (by linarith)]
  exact ⟨h, by rw [h]; exact lt_irrefl _⟩

/-- C3: every translation of update_camera is computed from the yaw and pitch
held at entry (forward and right from the entry yaw, the scroll direction
from the entry yaw and pitch); the rotation deltas reach yaw and pitch only
in the separate additive update afterwards, and both deltas are reset to
zero. -/
theorem update_camera_translations_use_entry_angles (c : CameraController) (cam : CameraData)
    (dt : ℝ) :
    (c.update_camera cam dt).2.position
        = cam.position
            + ((c.amount_forward - c.amount_backward) * c.speed * dt) •
                (forwardDir cam.yaw).normalize
            + ((c.amount_right - c.amount_left) * c.speed * dt) •
                (rightDir cam.yaw).normalize
            + (c.scroll * c.speed * c.sensitivity * dt) •
                (scrollwardDir cam.yaw cam.pitch).normalize
            + Vec3.mk 0 ((c.amount_up - c.amount_down) * c.speed * dt) 0
      ∧ (c.update_camera cam dt).2.yaw = cam.yaw + c.rotate_horizontal * c.sensitivity * dt
      ∧ (c.update_camera cam dt).2.pitch
          = clampPitch (cam.pitch + -c.rotate_vertical * c.sensitivity * dt)
      ∧ (c.update_camera cam dt).1.rotate_horizontal = 0
      ∧ (c.update_camera cam dt).1.rotate_vertical = 0 :=
  ⟨update_camera_position c cam dt, rfl, rfl, rfl, rfl⟩

/-- C4 (amended): with dt = 0, update_camera leaves the position and the yaw
unchanged and zeroes the rotation and scroll accumulators for every camera
state and controller state, including cameras whose entry pitch lies outside
the clamp interval; the pitch is likewise unchanged provided the entry pitch
already lies in the clamp interval (otherwise the final clamp still moves it,
refuted separately). -/
theorem update_camera_zero_dt (c : CameraController) (cam : CameraData) :
    (c.update_camera cam 0).2.position = cam.position
      ∧ (c.update_camera cam 0).2.yaw = cam.yaw
      ∧ (c.update_camera cam 0).1.rotate_horizontal = 0
      ∧ (c.update_camera cam 0).1.rotate_vertical = 0
      ∧ (c.update_camera cam 0).1.scroll = 0
      ∧ (-(Real.pi / 2) ≤ cam.pitch → cam.pitch ≤ Real.pi / 2 →
          (c.update_camera cam 0).2.pitch = cam.pitch) := by
  refine ⟨?_, ?_, rfl, rfl, rfl, fun h1 h2 => ?_⟩
  · rw [update_camera_position]
    refine Vec3.ext ?_ ?_ ?_ <;> simp [Vec3.add_def, Vec3.smul_def]
  · rw [update_camera_yaw]; ring
  · rw [update_camera_pitch]
    rw [show cam.pitch + -c.rotate_vertical * c.sensitivity * 0 = cam.pitch by ring]
    exact clampPitch_of_mem _ h1 h2

/-- C4 counterexample: dt = 0 with entry pitch 2, outside the clamp interval,
does not leave the pitch unchanged: the clamp sends it to pi/2. -/
theorem update_camera_zero_dt_clamps_pitch :
    ((CameraController.new 4 0.5).update_camera outOfRangeCamera 0).2.pitch ≠ 2
      ∧ ((CameraController.new 4 0.5).update_camera outOfRangeCamera 0).2.pitch
          = Real.pi / 2 := by
  have hlt : Real.pi / 2 < 2 := by linarith [Real.pi_lt_d2]
  have h : ((CameraController.new 4 0.5).update_camera outOfRangeCamera 0).2.pitch
      = Real.pi / 2 := by
    rw [update_camera_pitch]
    show clampPitch (2 + -0 * 0.5 * 0) = _
    rw [show (2 : ℝ) + -0 * 0.5 * 0 = 2 by norm_num]
    unfold clampPitch
    rw [if_neg (not_lt.mpr (by linarith [Real.pi_pos])), if_pos (by linarith)]
  exact ⟨by rw [h]; exact ne_of_lt hlt, h⟩

/-- C5: process_scroll stores the negated normalized delta, overwriting any
previous value: a line delta of y lines stores -(100 * y), a pixel delta
stores the negated raw y, and a second call without an intervening update
leaves exactly the second call's value, never the sum. -/
theorem process_scroll_overwrites (c : CameraController) :
    (∀ x y : ℝ, (c.process_scroll (MouseScrollDelta.lineDelta x y)).scroll = -(100 * y))
      ∧ (∀ x y : ℝ, (c.process_scroll (MouseScrollDelta.pixelDelta x y)).scroll = -y)
      ∧ ∀ d1 d2 : MouseScrollDelta,
          (c.process_scroll d1).process_scroll d2 = c.process_scroll d2 := by
  refine ⟨fun x y => ?_, fun x y => rfl, fun d1 d2 => rfl⟩
  show -(y * 100) = -(100 * y)
  ring

/-- C9: process_keyboard returns true exactly for the ten recognized movement
keys, setting the matching directional accumulator to 1 on press and 0 on
release; for every other key it returns false and leaves the controller
unchanged. -/
theorem process_keyboard_spec (c : CameraController) (key : VirtualKeyCode)
    (st : ElementState) :
    ((c.process_keyboard key st).2 = true ↔
        key = .w ∨ key = .up ∨ key = .s ∨ key = .down ∨ key = .a ∨ key = .left ∨
          key = .d ∨ key = .right ∨ key = .space ∨ key = .lshift)
      ∧ ((c.process_keyboard key st).2 = false → (c.process_keyboard key st).1 = c)
      ∧ (key = .w ∨ key = .up →
          (c.process_keyboard key st).1
            = { c with amount_forward := if st = ElementState.pressed then 1 else 0 })
      ∧ (key = .s ∨ key = .down →
          (c.process_keyboard key st).1
            = { c with amount_backward := if st = ElementState.pressed then 1 else 0 })
      ∧ (key = .a ∨ key = .left →
          (c.process_keyboard key st).1
            = { c with amount_left := if st = ElementState.pressed then 1 else 0 })
      ∧ (key = .d ∨ key = .right →
          (c.process_keyboard key st).1
            = { c with amount_right := if st = ElementState.pressed then 1 else 0 })
      ∧ (key = .space →
          (c.process_keyboard key st).1
            = { c with amount_up := if st = ElementState.pressed then 1 else 0 })
      ∧ (key = .lshift →
          (c.process_keyboard key st).1
            = { c with amount_down := if st = ElementState.pressed then 1 else 0 }) := by
  cases key <;> cases st <;> simp [CameraController.process_keyboard]

theorem Vec3.of_dot_self_pos (v : Vec3) (h : 0 < v.dot v) :
    v ≠ ⟨0, 0, 0⟩ ∧ 0 < v.magnitude := by
  constructor
  · rintro rfl
    norm_num [Vec3.dot] at h
  · exact Real.sqrt_pos.mpr h

/-- C10: the four direction vectors that the code normalizes, the look
direction of CameraData::calc_matrix and the forward, right and scroll
directions of update_camera, are nonzero for every yaw and pitch, and their
magnitude (the normalization divisor) is positive, so the normalization never
divides by zero. -/
theorem direction_vectors_nonzero (yaw pitch : ℝ) :
    (lookToDir yaw pitch ≠ ⟨0, 0, 0⟩ ∧ 0 < (lookToDir yaw pitch).magnitude)
      ∧ (forwardDir yaw ≠ ⟨0, 0, 0⟩ ∧ 0 < (forwardDir yaw).magnitude)
      ∧ (rightDir yaw ≠ ⟨0, 0, 0⟩ ∧ 0 < (rightDir yaw).magnitude)
      ∧ (scrollwardDir yaw pitch ≠ ⟨0, 0, 0⟩ ∧ 0 < (scrollwardDir yaw pitch).magnitude) := by
  refine ⟨Vec3.of_dot_self_pos _ ?_, Vec3.of_dot_self_pos _ ?_,
    Vec3.of_dot_self_pos _ ?_, Vec3.of_dot_self_pos _ ?_⟩
  · show 0 < Real.cos yaw * Real.cos yaw + Real.sin pitch * Real.sin pitch
        + Real.sin yaw * Real.sin yaw
    nlinarith [Real.sin_sq_add_cos_sq yaw, sq_nonneg (Real.sin pitch)]
  · show 0 < Real.cos yaw * Real.cos yaw + 0 * 0 + Real.sin yaw * Real.sin yaw
    nlinarith [Real.sin_sq_add_cos_sq yaw]
  · show 0 < -Real.sin yaw * -Real.sin yaw + 0 * 0 + Real.cos yaw * Real.cos yaw
    nlinarith [Real.sin_sq_add_cos_sq yaw]
  · show 0 < Real.cos pitch * Real.cos yaw * (Real.cos pitch * Real.cos yaw)
        + Real.sin pitch * Real.sin pitch
        + Real.cos pitch * Real.sin yaw * (Real.cos pitch * Real.sin yaw)
    nlinarith [Real.sin_sq_add_cos_sq yaw, Real.sin_sq_add_cos_sq pitch,
      sq_nonneg (Real.cos pitch), sq_nonneg (Real.sin pitch)]

theorem forwardScenario_position :
    (forwardController.update_camera forwardCamera 1).2.position = ⟨0, 0, -4⟩ := by
  have hf : (forwardDir (-(Real.pi / 2))).normalize = ⟨0, 0, -1⟩ := by
    rw [show forwardDir (-(Real.pi / 2)) = ⟨0, 0, -1⟩ by simp [forwardDir]]
    exact Vec3.normalize_of_dot_self_eq_one _ (by norm_num [Vec3.dot])
  have hr : (rightDir (-(Real.pi / 2))).normalize = ⟨1, 0, 0⟩ := by
    rw [show rightDir (-(Real.pi / 2)) = ⟨1, 0, 0⟩ by simp [rightDir]]
    exact Vec3.normalize_of_dot_self_eq_one _ (by norm_num [Vec3.dot])
  have hs : (scrollwardDir (-(Real.pi / 2)) 0).normalize = ⟨0, 0, -1⟩ := by
    rw [show scrollwardDir (-(Real.pi / 2)) 0 = ⟨0, 0, -1⟩ by simp [scrollwardDir]]
    exact Vec3.normalize_of_dot_self_eq_one _ (by norm_num [Vec3.dot])
  rw [update_camera_position]
  rw [show forwardCamera.yaw = -(Real.pi / 2) from rfl,
    show forwardCamera.pitch = 0 from rfl, hf, hr, hs]
  rw [show forwardController = { CameraController.new 4 0.5 with amount_forward := 1 }
    from rfl]
  refine Vec3.ext ?_ ?_ ?_ <;>
    norm_num [forwardCamera, CameraController.new, Vec3.add_def, Vec3.smul_def]

/-- C7 (amended): with the camera at the origin, yaw -90 degrees, pitch 0,
process_keyboard(W, Pressed) followed by update_camera with dt one second and
speed 4 moves the position by exactly (0, 0, -4): along negative z, not the
positive z of the original claim. -/
theorem forward_scenario_moves_neg_z :
    (forwardController.update_camera forwardCamera 1).2.position = ⟨0, 0, -4⟩ :=
  forwardScenario_position

/-- C7 counterexample: in that scenario the position is (0, 0, -4), which
differs from the claimed (0, 0, 4). -/
theorem forward_scenario_not_pos_z :
    (forwardController.update_camera forwardCamera 1).2.position ≠ ⟨0, 0, 4⟩ := by
  rw [forwardScenario_position]
  intro h
  have hz := congrArg Vec3.z h
  norm_num at hz

/-- C2 (amended): Projection::calc_matrix returns the clip-space correction
matrix multiplied by perspective(fovy, aspect, znear, zfar), where the
correction matrix has diagonal (1, 1, 0.5, 1), not (1, 1, 0.5, 0), and a
single extra translation entry of 0.5 in its third row. -/
theorem calc_matrix_eq_correction_mul_perspective (p : Projection) :
    p.calc_matrix = clipSpaceCorrection * perspective p.fovy p.aspect p.znear p.zfar
      ∧ OPENGL_TO_WGPU_MATRIX = clipSpaceCorrection := by
  have h : OPENGL_TO_WGPU_MATRIX = clipSpaceCorrection := rfl
  exact ⟨by rw [Projection.calc_matrix, h], h⟩

/-- C2 counterexample: with the correction matrix the spec describes,
diagonal (1, 1, 0.5, 0) with the extra 0.5 in the third row, the product
differs from calc_matrix at a concrete projection: entry (3, 2) of
calc_matrix is -1 while the spec's product has 0 there. -/
theorem calc_matrix_ne_spec_correction :
    Projection.calc_matrix cexProjection
      ≠ specClipSpaceCorrection
          * perspective cexProjection.fovy cexProjection.aspect cexProjection.znear
              cexProjection.zfar := by
  intro h
  have h32 := congrFun (congrFun h 3) 2
  simp [Projection.calc_matrix, OPENGL_TO_WGPU_MATRIX, specClipSpaceCorrection,
    perspective, Matrix.mul_apply, Fin.sum_univ_four, Matrix.vecHead,
    Matrix.vecTail] at h32

theorem gridInstance_position (z x : ℕ) :
    (gridInstance z x).position = ⟨(x : ℝ) * 10 - 5, 0, (z : ℝ) * 10 - 5⟩ := by
  show gridPosition z x = _
  unfold gridPosition INSTANCE_DISPLACEMENT NUM_INSTANCES_PER_ROW
  rw [Vec3.sub_def]
  norm_num

theorem gridInstance_position_ne_zero (z x : ℕ) :
    (gridInstance z x).position ≠ ⟨0, 0, 0⟩ := by
  rw [gridInstance_position]
  intro h
  have hx := congrArg Vec3.x h
  simp only at hx
  rcases Nat.eq_zero_or_pos x with h0 | h1
  · subst h0; norm_num at hx
  · have hc : (1 : ℝ) ≤ (x : ℝ) := by exact_mod_cast h1
    nlinarith

open Classical in
theorem gridInstance_rotation (z x : ℕ) :
    (gridInstance z x).rotation = ⟨(gridInstance z x).position.normalize, 45⟩ := by
  have h : gridPosition z x ≠ Vec3.mk 0 0 0 := gridInstance_position_ne_zero z x
  show (if gridPosition z x = Vec3.mk 0 0 0 then AxisAngle.mk unit_z 0
      else AxisAngle.mk (gridPosition z x).normalize 45) = _
  rw [if_neg h]
  rfl

theorem mem_engineInstances {i : Instance} :
    i ∈ engineInstances ↔ ∃ z, z < 10 ∧ ∃ x, x < 10 ∧ gridInstance z x = i := by
  simp [engineInstances, NUM_INSTANCES_PER_ROW]

theorem engineInstances_length : engineInstances.length = 100 := by
  simp [engineInstances, NUM_INSTANCES_PER_ROW, Function.comp_def, List.map_const',
    List.sum_replicate]

/-- C6 (amended): the engine creates exactly NUM_INSTANCES = 100 instances on
a 10 by 10 grid with spacing 10, offset by INSTANCE_DISPLACEMENT = (5, 0, 5);
positions range over (x * 10 - 5, 0, z * 10 - 5) and the grid is not centered
on the origin.  No instance position is the zero vector, so the
identity-rotation special case never fires: every instance is rotated 45
degrees about its normalized position. -/
theorem engine_instances_grid :
    engineInstances.length = NUM_INSTANCES
      ∧ NUM_INSTANCES = 100
      ∧ (∀ z x : ℕ, z < 10 → x < 10 →
          gridInstance z x ∈ engineInstances
            ∧ (gridInstance z x).position = ⟨(x : ℝ) * 10 - 5, 0, (z : ℝ) * 10 - 5⟩)
      ∧ (∀ i ∈ engineInstances, ∃ z, z < 10 ∧ ∃ x, x < 10 ∧ gridInstance z x = i)
      ∧ ∀ i ∈ engineInstances,
          i.position ≠ ⟨0, 0, 0⟩ ∧ i.rotation = ⟨i.position.normalize, 45⟩ := by
  refine ⟨engineInstances_length, rfl, ?_, ?_, ?_⟩
  · intro z x hz hx
    exact ⟨mem_engineInstances.mpr ⟨z, hz, x, hx, rfl⟩, gridInstance_position z x⟩
  · intro i hi
    exact mem_engineInstances.mp hi
  · intro i hi
    obtain ⟨z, hz, x, hx, rfl⟩ := mem_engineInstances.mp hi
    exact ⟨gridInstance_position_ne_zero z x, gridInstance_rotation z x⟩

/-- C6 counterexample: the instance positions are not centered on the origin,
(85, 0, 85) occurs but its mirror image (-85, 0, -85) does not, and no
instance sits at the zero vector, so there is no origin instance to receive
the identity rotation. -/
theorem engine_instances_not_centered :
    (∃ i ∈ engineInstances, i.position = ⟨85, 0, 85⟩)
      ∧ (∀ i ∈ engineInstances, i.position ≠ ⟨-85, 0, -85⟩)
      ∧ (∀ i ∈ engineInstances, i.position ≠ ⟨0, 0, 0⟩) := by
  refine ⟨⟨gridInstance 9 9, mem_engineInstances.mpr ⟨9, by norm_num, 9, by norm_num, rfl⟩,
    by rw [gridInstance_position]; norm_num⟩, ?_, ?_⟩
  · intro i hi
    obtain ⟨z, hz, x, hx, rfl⟩ := mem_engineInstances.mp hi
    rw [gridInstance_position]
    intro h
    have hxc := congrArg Vec3.x h
    simp only at hxc
    have hc : (0 : ℝ) ≤ (x : ℝ) := Nat.cast_nonneg x
    nlinarith
  · intro i hi
    obtain ⟨z, hz, x, hx, rfl⟩ := mem_engineInstances.mp hi
    exact gridInstance_position_ne_zero z x

/-- C8: Engine::resize recomputes the projection aspect ratio from the new
size unconditionally, even when a dimension is zero, leaving fovy, znear and
zfar untouched; it recreates the depth texture from the final surface
configuration; and it updates the stored window size and surface
configuration exactly when both new dimensions are nonzero, leaving them
unchanged otherwise.  (Camera::resize_projection is modelled from the spec as
delegation to Projection::resize.) -/
theorem engine_resize_spec (e : Engine) (s : PhysicalSize) :
    (e.resize s).projection.aspect = (s.width : ℝ) / (s.height : ℝ)
      ∧ (e.resize s).projection.fovy = e.projection.fovy
      ∧ (e.resize s).projection.znear = e.projection.znear
      ∧ (e.resize s).projection.zfar = e.projection.zfar
      ∧ (e.resize s).depth_texture = create_depth_texture (e.resize s).surface_config
      ∧ (0 < s.width ∧ 0 < s.height →
          (e.resize s).window_size = s
            ∧ (e.resize s).surface_config = ⟨s.width, s.height⟩)
      ∧ (¬(0 < s.width ∧ 0 < s.height) →
          (e.resize s).window_size = e.window_size
            ∧ (e.resize s).surface_config = e.surface_config) := by
  unfold Engine.resize Camera.resize_projection Projection.resize create_depth_texture
  by_cases h : 0 < s.width ∧ 0 < s.height <;> simp [h]

end ObjViewer
